import Mathlib

/-!
Verification of the synchronization engine of the GitTools repository
(`GitBackup.pyw`): the Repository Directory Client (`get_user_repos`),
the Command Runner (`run_git_command`), the Sync Orchestrator
(`clone_or_pull`) and the Session Driver (`process_repos`).

The Python code is embedded shallowly.  External effects are oracles:
* the network is a function from page number to a parsed HTTP outcome,
* the filesystem is a pair of boolean predicates on paths,
* subprocess execution is a function from (argv, cwd) to either an
  exception description or an exit code plus raw output lines.

Every traced observable of the code — callback invocations (`onStatus`,
`onOutput`), HTTP requests issued, and subprocess launches — is returned
explicitly, so that the theorems can speak about orderings, counts and
non-occurrence of events.  The Python `while True` pagination loop is
rendered as fuel-indexed recursion; `none` means the fuel was exhausted,
and the theorems always supply enough fuel for the scenario at hand.
-/

namespace GitBackup

/-- A repository reference as built by `get_user_repos`:
`{"name": repo["name"], "clone_url": repo["clone_url"]}`. -/
structure RepoInfo where
  name : String
  clone_url : String
deriving DecidableEq, Repr

/-- A raw repository object of the JSON page body.  The code accesses
`repo["name"]` and `repo["clone_url"]`; a `none` field models a missing
key (Python raises `KeyError`). -/
structure RepoObj where
  name : Option String
  clone_url : Option String
deriving DecidableEq, Repr

/-- A callback invocation: `status_callback(repo_name, status)` or
`output_callback(line)`.  Status strings are the literal strings of the
source: "处理中" (processing), "成功" (success), "失败" (failed),
"跳过" (skipped). -/
inductive Event where
  | status (repoName : String) (st : String)
  | output (line : String)
deriving DecidableEq, Repr

/-- One `subprocess.Popen` launch attempt: argument vector and working
directory (`cwd=None` is the process's current directory). -/
structure GitCall where
  cmd : List String
  cwd : Option String
deriving DecidableEq, Repr

/-- One HTTP request issued by the listing client: the formatted URL and
the header dictionary (`{"Authorization": "token ..."}` or empty). -/
structure Request where
  url : String
  headers : List (String × String)
deriving DecidableEq, Repr

/-- Outcome of one listing round-trip, as seen after
`json.loads(response.read().decode())`:
* `success data link`: a 2xx response whose body parsed to the object
  list `data`, with `response.headers.get("Link") = link`;
* `httpError code msg`: `urllib.error.HTTPError` with `e.code = code`
  and `str(e) = msg`;
* `otherError msg`: any other exception `e` (transport failure,
  malformed body, ...) with `str(e) = msg`. -/
inductive PageResponse where
  | success (data : List RepoObj) (link : Option String)
  | httpError (code : Nat) (msg : String)
  | otherError (msg : String)

/-- Result of a completed subprocess: the raw lines of the merged
stdout+stderr stream (before `rstrip`) and `process.returncode`. -/
structure ProcResult where
  lines : List String
  exitCode : Int

/-- The subprocess oracle: given argv and cwd, either the description of
an exception raised while launching/communicating, or the process
result. -/
def GitRun : Type := List String → Option String → Except String ProcResult

/-- The external environment of the Sync Orchestrator:
`os.path.exists`, `os.path.isdir`, `os.path.normpath` (a stdlib path
function, kept abstract), and the subprocess oracle. -/
structure World where
  pathExists : String → Bool
  isdir : String → Bool
  normpath : String → String
  git : GitRun

/-- `os.path.join a b` for a relative second component (POSIX form). -/
def pyJoin (a b : String) : String := a ++ "/" ++ b

/-- The whitespace characters stripped by Python's `str.rstrip()`. -/
def isPySpace (c : Char) : Bool :=
  c == ' ' || c == '\t' || c == '\n' || c == '\r' || c == '\u000B' || c == '\u000C'

/-- Python `line.rstrip()`: drop trailing whitespace. -/
def pyRstrip (s : String) : String :=
  ⟨(s.data.reverse.dropWhile isPySpace).reverse⟩

/-- `needle in hay` on char lists: some suffix of `hay` starts with
`needle`. -/
def infixCheck (needle : List Char) : List Char → Bool
  | [] => needle.isEmpty
  | c :: rest => needle.isPrefixOf (c :: rest) || infixCheck needle rest

/-- Python's substring test `needle in hay`. -/
def pyIn (needle hay : String) : Bool := infixCheck needle.data hay.data

/-- `link_header = response.headers.get("Link")` followed by
`if link_header and 'rel="next"' in link_header` (an absent or empty
header is falsy). -/
def hasNextLink : Option String → Bool
  | none => false
  | some s => (!(s == "")) && pyIn "rel=\"next\"" s

/-- `if output_callback: output_callback(line)`. -/
def outIf (cb : Bool) (line : String) : List Event :=
  if cb then [Event.output line] else []

/-- `if status_callback: status_callback(repo_name, st)`. -/
def statusIf (cb : Bool) (repoName st : String) : List Event :=
  if cb then [Event.status repoName st] else []

/-- The message raised on HTTP 403 with a rate-limit indicator. -/
def rateLimitedMsg : String :=
  "API 速率限制已用尽。请稍后再试，或使用个人访问令牌提高限制。"

/-- The message raised when the user does not exist (HTTP 404). -/
def userNotFoundMsg (username : String) : String :=
  "用户 " ++ username ++ " 不存在或没有公共仓库。"

/-- The `except urllib.error.HTTPError` branch of `get_user_repos`:
classify the HTTP failure into the raised domain-error message. -/
def classifyHTTPError (username : String) (code : Nat) (msg : String) : String :=
  if code == 404 then userNotFoundMsg username
  else if code == 403 && pyIn "rate limit" msg then rateLimitedMsg
  else "API 请求失败: " ++ msg

/-- The request of one pagination step: URL
`https://api.github.com/users/{username}/repos?page={page}&per_page=100`
with the `Authorization` header exactly when a token is supplied. -/
def mkRequest (username : String) (token : Option String) (page : Nat) : Request :=
  { url := "https://api.github.com/users/" ++ username ++ "/repos?page=" ++
      toString page ++ "&per_page=100"
    headers := match token with
      | some t => [("Authorization", "token " ++ t)]
      | none => [] }

/-- The body of the `for repo in data` loop: read `repo["name"]` and
`repo["clone_url"]` in that order; a missing key raises `KeyError(k)`,
whose `str` is the quoted key name. -/
def extractRepo (o : RepoObj) : Except String RepoInfo :=
  match o.name with
  | none => Except.error "\x27name\x27"
  | some n =>
    match o.clone_url with
    | none => Except.error "\x27clone_url\x27"
    | some u => Except.ok ⟨n, u⟩

/-- Extraction over a whole page, stopping at the first missing key. -/
def extractRepos : List RepoObj → Except String (List RepoInfo)
  | [] => Except.ok []
  | o :: os =>
    match extractRepo o with
    | Except.error e => Except.error e
    | Except.ok r =>
      match extractRepos os with
      | Except.error e => Except.error e
      | Except.ok rs => Except.ok (r :: rs)

/-- The `while True` pagination loop of `get_user_repos`, one recursive
call per iteration, indexed by fuel.  Returns the list of pages
requested, in order, and either the concatenated repository list or the
message of the raised exception.  The loop body:
fetch the page; on `HTTPError` classify and raise; on any other
exception raise `发生错误: {e}`; on success stop if the body is empty,
extract the pairs (a `KeyError` is caught by the generic handler), then
continue at `page+1` iff the Link header advertises `rel="next"`. -/
def fetchPages (net : Nat → PageResponse) (username : String) :
    Nat → Nat → Option (List Nat × Except String (List RepoInfo))
  | 0, _ => none
  | fuel + 1, page =>
    match net page with
    | PageResponse.success data link =>
      if data.isEmpty then some ([page], Except.ok [])
      else
        match extractRepos data with
        | Except.error e => some ([page], Except.error ("发生错误: " ++ e))
        | Except.ok items =>
          if hasNextLink link then
            match fetchPages net username fuel (page + 1) with
            | none => none
            | some (ps, Except.ok rest) => some (page :: ps, Except.ok (items ++ rest))
            | some (ps, Except.error e) => some (page :: ps, Except.error e)
          else some ([page], Except.ok items)
    | PageResponse.httpError code msg =>
      some ([page], Except.error (classifyHTTPError username code msg))
    | PageResponse.otherError msg =>
      some ([page], Except.error ("发生错误: " ++ msg))

/-- Result of the Repository Directory Client: requests issued and the
outcome. -/
structure ListResult where
  requests : List Request
  result : Except String (List RepoInfo)

/-- `get_user_repos(username, token)`: run the pagination loop from
page 1; every iteration builds the same headers from the token and the
URL from the page number, so the requests issued are `mkRequest` over
the visited pages. -/
def get_user_repos (net : Nat → PageResponse) (fuel : Nat)
    (username : String) (token : Option String) : Option ListResult :=
  match fetchPages net username fuel 1 with
  | none => none
  | some (pages, res) => some ⟨pages.map (mkRequest username token), res⟩

/-- Result of `run_git_command`: the returned pair plus the traced
output-callback events and the subprocess launch attempt. -/
structure RunResult where
  success : Bool
  output : String
  events : List Event
  calls : List GitCall

/-- `run_git_command(cmd, cwd, output_callback)`: launch the process; on
any exception return `(False, str(e))`.  Otherwise each stdout line is
`rstrip`ped, collected, and passed to the callback in order; after
`process.wait()` the result is `(returncode == 0, "\n".join(lines))`. -/
def run_git_command (git : GitRun) (cmd : List String) (cwd : Option String)
    (cbOut : Bool) : RunResult :=
  match git cmd cwd with
  | Except.error e => ⟨false, e, [], [⟨cmd, cwd⟩]⟩
  | Except.ok pr =>
    let lines := pr.lines.map pyRstrip
    ⟨pr.exitCode == 0, "\n".intercalate lines,
      if cbOut then lines.map Event.output else [], [⟨cmd, cwd⟩]⟩

/-- Result of the Sync Orchestrator for one repository. -/
structure CloneResult where
  success : Bool
  events : List Event
  calls : List GitCall

/-- `clone_or_pull(repo_info, base_dir, status_callback, output_callback)`:
emit `处理中`; if the normalized local path does not exist, clone; else
if it lacks a `.git` subdirectory, log and emit `跳过` and return
`False`; else pull inside it.  After a clone/pull emit `成功` or `失败`
according to the runner's flag, which is also the return value. -/
def clone_or_pull (w : World) (repo : RepoInfo) (base_dir : String)
    (cbS cbO : Bool) : CloneResult :=
  let local_path := w.normpath (pyJoin base_dir repo.name)
  let ev0 := statusIf cbS repo.name "处理中"
  if !(w.pathExists local_path) then
    let ev1 := outIf cbO ("克隆 " ++ repo.clone_url ++ " 到 " ++ local_path)
    let rr := run_git_command w.git ["git", "clone", repo.clone_url, local_path] none cbO
    let ev2 := statusIf cbS repo.name (if rr.success then "成功" else "失败")
    ⟨rr.success, ev0 ++ ev1 ++ rr.events ++ ev2, rr.calls⟩
  else if !(w.isdir (pyJoin local_path ".git")) then
    ⟨false,
      ev0 ++ outIf cbO ("跳过: " ++ local_path ++ " 不是一个 Git 仓库") ++
        statusIf cbS repo.name "跳过", []⟩
  else
    let ev1 := outIf cbO ("拉取 " ++ local_path)
    let rr := run_git_command w.git ["git", "pull"] (some local_path) cbO
    let ev2 := statusIf cbS repo.name (if rr.success then "成功" else "失败")
    ⟨rr.success, ev0 ++ ev1 ++ rr.events ++ ev2, rr.calls⟩

/-- Accumulated state of the Session Driver's repository loop. -/
structure LoopAcc where
  succ : Nat
  fail : Nat
  events : List Event
  calls : List GitCall

/-- The `for repo in repos` loop of `process_repos`: call the
orchestrator for each repository in listing order, counting successes
and failures. -/
def processLoop (w : World) (base_dir : String) (cbS cbO : Bool) :
    List RepoInfo → LoopAcc
  | [] => ⟨0, 0, [], []⟩
  | r :: rs =>
    let c := clone_or_pull w r base_dir cbS cbO
    let rest := processLoop w base_dir cbS cbO rs
    ⟨(if c.success then 1 else 0) + rest.succ,
      (if c.success then 0 else 1) + rest.fail,
      c.events ++ rest.events, c.calls ++ rest.calls⟩

/-- Result of one session: the returned boolean and all traced
observables. -/
structure SessionResult where
  result : Bool
  requests : List Request
  events : List Event
  calls : List GitCall

/-- `process_repos(username, base_dir, token, status_callback,
output_callback)`: announce the listing, fetch; on a listing error log
it and return `False`; on an empty listing log and return `True`;
otherwise log the count, loop, log the summary and return
`fail_count == 0`. -/
def process_repos (w : World) (net : Nat → PageResponse) (fuel : Nat)
    (username base_dir : String) (token : Option String)
    (cbS cbO : Bool) : Option SessionResult :=
  let ev0 := outIf cbO ("正在获取用户 " ++ username ++ " 的仓库列表...")
  match get_user_repos net fuel username token with
  | none => none
  | some lr =>
    match lr.result with
    | Except.error e =>
      some ⟨false, lr.requests, ev0 ++ outIf cbO ("错误: " ++ e), []⟩
    | Except.ok repos =>
      if repos.isEmpty then
        some ⟨true, lr.requests, ev0 ++ outIf cbO "没有找到任何仓库。", []⟩
      else
        let ev1 := outIf cbO ("共找到 " ++ toString repos.length ++ " 个仓库，开始处理...")
        let lp := processLoop w base_dir cbS cbO repos
        some ⟨lp.fail == 0, lr.requests,
          ev0 ++ ev1 ++ lp.events ++
            outIf cbO ("\n处理完成: " ++ toString lp.succ ++ " 成功, " ++
              toString lp.fail ++ " 失败"),
          lp.calls⟩

/-! Specification-side derived quantities. -/

/-- Number of repositories of `repos` whose orchestration fails (a skip
returns `False` and therefore counts here). -/
def failTally (w : World) (base_dir : String) (cbS cbO : Bool)
    (repos : List RepoInfo) : Nat :=
  repos.countP (fun r => !(clone_or_pull w r base_dir cbS cbO).success)

/-- Number of repositories of `repos` whose orchestration succeeds. -/
def succTally (w : World) (base_dir : String) (cbS cbO : Bool)
    (repos : List RepoInfo) : Nat :=
  repos.countP (fun r => (clone_or_pull w r base_dir cbS cbO).success)

/-- Is this event a status-callback invocation? -/
def isStatusEvent : Event → Bool
  | Event.status _ _ => true
  | Event.output _ => false

/-- Is this event a terminal status-callback invocation
(`成功`, `失败` or `跳过`)? -/
def isTerminalEvent : Event → Bool
  | Event.status _ st => st == "成功" || st == "失败" || st == "跳过"
  | Event.output _ => false

/-- A well-formed JSON repository object (both keys present). -/
def toObj (r : RepoInfo) : RepoObj := ⟨some r.name, some r.clone_url⟩

/-! Concrete scenario environments used by the witnesses. -/

def net4 : Nat → PageResponse := fun k =>
  if k = 1 then PageResponse.success [toObj ⟨"a", "ua"⟩] (some "<https://x>; rel=\"next\"")
  else PageResponse.success [] none

def pageOf4 : Nat → List RepoInfo := fun k => if k = 1 then [⟨"a", "ua"⟩] else []

def links4 : Nat → Option String := fun k =>
  if k = 1 then some "<https://x>; rel=\"next\"" else none

def gWit : GitRun := fun cmd _ =>
  if cmd = ["git", "pull"] then Except.error "boom"
  else Except.ok ⟨["hello ", "world"], 0⟩

def wSkip : World :=
  { pathExists := fun _ => true
    isdir := fun _ => false
    normpath := fun s => s
    git := fun _ _ => Except.ok ⟨[], 0⟩ }

def wFailClone : World :=
  { pathExists := fun _ => false
    isdir := fun _ => true
    normpath := fun s => s
    git := fun _ _ => Except.ok ⟨["fatal: nope"], 128⟩ }

def wPull : World :=
  { pathExists := fun _ => true
    isdir := fun _ => true
    normpath := fun s => s
    git := fun _ _ => Except.ok ⟨["Already up to date."], 0⟩ }

def net1 : Nat → PageResponse := fun _ => PageResponse.success [toObj ⟨"r", "u"⟩] none

def srW : SessionResult :=
  (process_repos wSkip net1 1 "alice" "base" none true true).getD ⟨false, [], [], []⟩

def repos3 : List RepoInfo := [⟨"r1", "u1"⟩, ⟨"r2", "u2"⟩, ⟨"r3", "u3"⟩]

def w3 : World :=
  { pathExists := fun p => p == "base/r3"
    isdir := fun _ => false
    normpath := fun s => s
    git := fun _ _ => Except.ok ⟨["done"], 0⟩ }

def net3 : Nat → PageResponse := fun _ => PageResponse.success (repos3.map toObj) none

def net404 : Nat → PageResponse := fun _ =>
  PageResponse.httpError 404 "HTTP Error 404: Not Found"

def net403rl : Nat → PageResponse := fun _ =>
  PageResponse.httpError 403 "HTTP Error 403: rate limit exceeded"

def net403f : Nat → PageResponse := fun _ =>
  PageResponse.httpError 403 "HTTP Error 403: Forbidden"

def netP2 : Nat → PageResponse := fun k =>
  if k = 1 then PageResponse.success [toObj ⟨"a", "ua"⟩] (some "<n>; rel=\"next\"")
  else PageResponse.otherError "Connection refused"

def netNoName : Nat → PageResponse := fun _ =>
  PageResponse.success [⟨none, some "u"⟩] none

def netE : Nat → PageResponse := fun _ => PageResponse.success [] none

def srW8 : SessionResult :=
  (process_repos wSkip netE 1 "alice" "base" (some "tk") true true).getD ⟨false, [], [], []⟩

/-! Theorems. -/

theorem clone_or_pull_clone (w : World) (r : RepoInfo) (d : String) (cbS cbO : Bool)
    (h : w.pathExists (w.normpath (pyJoin d r.name)) = false) :
    clone_or_pull w r d cbS cbO =
      ⟨(run_git_command w.git ["git", "clone", r.clone_url, w.normpath (pyJoin d r.name)] none cbO).success,
        statusIf cbS r.name "处理中" ++
          outIf cbO ("克隆 " ++ r.clone_url ++ " 到 " ++ w.normpath (pyJoin d r.name)) ++
          (run_git_command w.git ["git", "clone", r.clone_url, w.normpath (pyJoin d r.name)] none cbO).events ++
          statusIf cbS r.name
            (if (run_git_command w.git ["git", "clone", r.clone_url, w.normpath (pyJoin d r.name)] none cbO).success
             then "成功" else "失败"),
        (run_git_command w.git ["git", "clone", r.clone_url, w.normpath (pyJoin d r.name)] none cbO).calls⟩ := by
  simp only [clone_or_pull, h]
  rfl

theorem clone_or_pull_skip (w : World) (r : RepoInfo) (d : String) (cbS cbO : Bool)
    (h : w.pathExists (w.normpath (pyJoin d r.name)) = true)
    (h2 : w.isdir (pyJoin (w.normpath (pyJoin d r.name)) ".git") = false) :
    clone_or_pull w r d cbS cbO =
      ⟨false,
        statusIf cbS r.name "处理中" ++
          outIf cbO ("跳过: " ++ w.normpath (pyJoin d r.name) ++ " 不是一个 Git 仓库") ++
          statusIf cbS r.name "跳过", []⟩ := by
  simp only [clone_or_pull, h, h2]
  rfl

theorem clone_or_pull_pull (w : World) (r : RepoInfo) (d : String) (cbS cbO : Bool)
    (h : w.pathExists (w.normpath (pyJoin d r.name)) = true)
    (h2 : w.isdir (pyJoin (w.normpath (pyJoin d r.name)) ".git") = true) :
    clone_or_pull w r d cbS cbO =
      ⟨(run_git_command w.git ["git", "pull"] (some (w.normpath (pyJoin d r.name))) cbO).success,
        statusIf cbS r.name "处理中" ++
          outIf cbO ("拉取 " ++ w.normpath (pyJoin d r.name)) ++
          (run_git_command w.git ["git", "pull"] (some (w.normpath (pyJoin d r.name))) cbO).events ++
          statusIf cbS r.name
            (if (run_git_command w.git ["git", "pull"] (some (w.normpath (pyJoin d r.name))) cbO).success
             then "成功" else "失败"),
        (run_git_command w.git ["git", "pull"] (some (w.normpath (pyJoin d r.name))) cbO).calls⟩ := by
  simp only [clone_or_pull, h, h2]
  rfl

theorem filter_output_nil (p : Event → Bool) (h : ∀ s, p (Event.output s) = false)
    (l : List String) : (l.map Event.output).filter p = [] := by
  induction l with
  | nil => rfl
  | cons a l ih => simp [List.filter, h, ih]

theorem run_git_command_calls (g : GitRun) (cmd : List String) (cwd : Option String)
    (cbO : Bool) : (run_git_command g cmd cwd cbO).calls = [⟨cmd, cwd⟩] := by
  unfold run_git_command
  cases g cmd cwd <;> rfl

theorem run_git_command_filter (g : GitRun) (cmd : List String) (cwd : Option String)
    (cbO : Bool) (p : Event → Bool) (h : ∀ s, p (Event.output s) = false) :
    (run_git_command g cmd cwd cbO).events.filter p = [] := by
  unfold run_git_command
  cases g cmd cwd with
  | error e => rfl
  | ok pr =>
    simp only
    cases cbO with
    | false => rfl
    | true => simpa using filter_output_nil p h (pr.lines.map pyRstrip)

theorem clone_or_pull_statusTrace (w : World) (r : RepoInfo) (d : String) (cbO : Bool) :
    ∃ t, ((clone_or_pull w r d true cbO).events.filter isStatusEvent
          = [Event.status r.name "处理中", Event.status r.name t])
      ∧ (t = "成功" ∨ t = "失败" ∨ t = "跳过")
      ∧ ((clone_or_pull w r d true cbO).events.filter isTerminalEvent
          = [Event.status r.name t]) := by
  cases h : w.pathExists (w.normpath (pyJoin d r.name)) with
  | false =>
    rw [clone_or_pull_clone w r d true cbO h]
    cases hs : (run_git_command w.git ["git", "clone", r.clone_url,
        w.normpath (pyJoin d r.name)] none cbO).success with
    | true =>
      refine ⟨"成功", ?_, Or.inl rfl, ?_⟩ <;>
        simp [hs, statusIf, outIf, List.filter_append,
          run_git_command_filter _ _ _ _ isStatusEvent (fun _ => rfl),
          run_git_command_filter _ _ _ _ isTerminalEvent (fun _ => rfl),
          isStatusEvent, isTerminalEvent]
    | false =>
      refine ⟨"失败", ?_, Or.inr (Or.inl rfl), ?_⟩ <;>
        simp [hs, statusIf, outIf, List.filter_append,
          run_git_command_filter _ _ _ _ isStatusEvent (fun _ => rfl),
          run_git_command_filter _ _ _ _ isTerminalEvent (fun _ => rfl),
          isStatusEvent, isTerminalEvent]
  | true =>
    cases h2 : w.isdir (pyJoin (w.normpath (pyJoin d r.name)) ".git") with
    | false =>
      rw [clone_or_pull_skip w r d true cbO h h2]
      exact ⟨"跳过", by simp [statusIf, outIf, List.filter_append, isStatusEvent],
        Or.inr (Or.inr rfl),
        by simp [statusIf, outIf, List.filter_append, isTerminalEvent]⟩
    | true =>
      rw [clone_or_pull_pull w r d true cbO h h2]
      cases hs : (run_git_command w.git ["git", "pull"]
          (some (w.normpath (pyJoin d r.name))) cbO).success with
      | true =>
        refine ⟨"成功", ?_, Or.inl rfl, ?_⟩ <;>
          simp [hs, statusIf, outIf, List.filter_append,
            run_git_command_filter _ _ _ _ isStatusEvent (fun _ => rfl),
            run_git_command_filter _ _ _ _ isTerminalEvent (fun _ => rfl),
            isStatusEvent, isTerminalEvent]
      | false =>
        refine ⟨"失败", ?_, Or.inr (Or.inl rfl), ?_⟩ <;>
          simp [hs, statusIf, outIf, List.filter_append,
            run_git_command_filter _ _ _ _ isStatusEvent (fun _ => rfl),
            run_git_command_filter _ _ _ _ isTerminalEvent (fun _ => rfl),
            isStatusEvent, isTerminalEvent]

theorem processLoop_succ (w : World) (d : String) (cbS cbO : Bool) (rs : List RepoInfo) :
    (processLoop w d cbS cbO rs).succ = succTally w d cbS cbO rs := by
  induction rs with
  | nil => rfl
  | cons r rs ih =>
    simp [processLoop, succTally, List.countP_cons, ih, succTally]
    cases (clone_or_pull w r d cbS cbO).success <;> simp [Nat.add_comm]

theorem processLoop_fail (w : World) (d : String) (cbS cbO : Bool) (rs : List RepoInfo) :
    (processLoop w d cbS cbO rs).fail = failTally w d cbS cbO rs := by
  induction rs with
  | nil => rfl
  | cons r rs ih =>
    simp [processLoop, failTally, List.countP_cons, ih, failTally]
    cases (clone_or_pull w r d cbS cbO).success <;> simp [Nat.add_comm]

theorem processLoop_terminal_count (w : World) (d : String) (cbO : Bool)
    (rs : List RepoInfo) :
    ((processLoop w d true cbO rs).events.filter isTerminalEvent).length = rs.length := by
  induction rs with
  | nil => rfl
  | cons r rs ih =>
    obtain ⟨t, _, _, ht⟩ := clone_or_pull_statusTrace w r d cbO
    simp [processLoop, List.filter_append, ht, ih]

theorem process_repos_ok (w : World) (net : Nat → PageResponse) (fuel : Nat)
    (u d : String) (tok : Option String) (cbS cbO : Bool)
    (reqs : List Request) (repos : List RepoInfo)
    (hok : get_user_repos net fuel u tok = some ⟨reqs, Except.ok repos⟩)
    (hne : repos ≠ []) :
    process_repos w net fuel u d tok cbS cbO =
      some ⟨(processLoop w d cbS cbO repos).fail == 0, reqs,
        outIf cbO ("正在获取用户 " ++ u ++ " 的仓库列表...") ++
          outIf cbO ("共找到 " ++ toString repos.length ++ " 个仓库，开始处理...") ++
          (processLoop w d cbS cbO repos).events ++
          outIf cbO ("\n处理完成: " ++ toString (processLoop w d cbS cbO repos).succ ++
            " 成功, " ++ toString (processLoop w d cbS cbO repos).fail ++ " 失败"),
        (processLoop w d cbS cbO repos).calls⟩ := by
  have hne' : repos.isEmpty = false := by
    cases repos with
    | nil => exact absurd rfl hne
    | cons a l => rfl
  simp only [process_repos, hok, hne', Bool.false_eq_true, if_false]

theorem process_repos_err (w : World) (net : Nat → PageResponse) (fuel : Nat)
    (u d : String) (tok : Option String) (cbS cbO : Bool)
    (reqs : List Request) (e : String)
    (herr : get_user_repos net fuel u tok = some ⟨reqs, Except.error e⟩) :
    process_repos w net fuel u d tok cbS cbO =
      some ⟨false, reqs,
        outIf cbO ("正在获取用户 " ++ u ++ " 的仓库列表...") ++
          outIf cbO ("错误: " ++ e), []⟩ := by
  simp only [process_repos, herr]

theorem extractRepos_toObj (l : List RepoInfo) :
    extractRepos (l.map toObj) = Except.ok l := by
  induction l with
  | nil => rfl
  | cons r rs ih => simp [extractRepos, extractRepo, toObj, ih]

theorem fetchPages_spec (net : Nat → PageResponse) (u : String)
    (pageOf : Nat → List RepoInfo) (links : Nat → Option String) :
    ∀ (m p fuel : Nat), m < fuel →
    (∀ k, p ≤ k → k < p + m →
       net k = PageResponse.success ((pageOf k).map toObj) (links k) ∧
       pageOf k ≠ [] ∧ hasNextLink (links k) = true) →
    net (p + m) = PageResponse.success ((pageOf (p + m)).map toObj) (links (p + m)) →
    (pageOf (p + m) = [] ∨ hasNextLink (links (p + m)) = false) →
    fetchPages net u fuel p =
      some (List.range' p (m + 1),
        Except.ok (((List.range' p (m + 1)).map pageOf).flatten)) := by
  intro m
  induction m with
  | zero =>
    intro p fuel hfuel hmid hlast hstop
    obtain ⟨f, rfl⟩ : ∃ f, fuel = f + 1 := ⟨fuel - 1, by omega⟩
    rw [Nat.add_zero] at hlast hstop
    cases hstop with
    | inl hemp =>
      simp [fetchPages, hlast, hemp, List.range'_succ]
    | inr hnext =>
      cases hemp : (pageOf p).isEmpty with
      | true =>
        have : pageOf p = [] := List.isEmpty_iff.mp hemp
        simp [fetchPages, hlast, this, List.range'_succ]
      | false =>
        simp [fetchPages, hlast, hemp, extractRepos_toObj, hnext, List.range'_succ]
  | succ m ih =>
    intro p fuel hfuel hmid hlast hstop
    obtain ⟨f, rfl⟩ : ∃ f, fuel = f + 1 := ⟨fuel - 1, by omega⟩
    obtain ⟨hp, hpne, hpnext⟩ := hmid p (Nat.le_refl p) (by omega)
    have hpne' : ((pageOf p).map toObj).isEmpty = false := by
      cases hpe : pageOf p with
      | nil => exact absurd hpe hpne
      | cons a l => rfl
    have hrec := ih (p + 1) f (by omega)
      (fun k hk1 hk2 => hmid k (by omega) (by omega))
      (by rw [show p + 1 + m = p + (m + 1) by omega]; exact hlast)
      (by rw [show p + 1 + m = p + (m + 1) by omega]; exact hstop)
    simp only [fetchPages, hp, hpne', Bool.false_eq_true, if_false,
      extractRepos_toObj, hpnext, if_true, hrec]
    rw [List.range'_succ]
    simp [List.range'_succ]

/-- C4: pagination terminates.  For a listing whose pages `1..N-1` are
nonempty and advertise a next relation, and whose page `N` is empty or
lacks the next relation, `get_user_repos` issues exactly the requests
for pages `1, 2, ..., N` in strictly increasing order (page size 100)
and returns the concatenation of the page contents in page order.  The
claim is N+1-requests case (a last full page still advertising `next`
followed by an empty page) is this statement at `N+1` with an empty
final page. -/
theorem pagination_terminates (net : Nat → PageResponse)
    (pageOf : Nat → List RepoInfo) (links : Nat → Option String)
    (N fuel : Nat) (u : String) (tok : Option String)
    (hN : 1 ≤ N) (hfuel : N ≤ fuel)
    (hmid : ∀ k, 1 ≤ k → k < N →
       net k = PageResponse.success ((pageOf k).map toObj) (links k) ∧
       pageOf k ≠ [] ∧ hasNextLink (links k) = true)
    (hlast : net N = PageResponse.success ((pageOf N).map toObj) (links N))
    (hstop : pageOf N = [] ∨ hasNextLink (links N) = false) :
    get_user_repos net fuel u tok =
      some ⟨(List.range' 1 N).map (mkRequest u tok),
        Except.ok (((List.range' 1 N).map pageOf).flatten)⟩ := by
  have hN' : 1 + (N - 1) = N := by omega
  have h := fetchPages_spec net u pageOf links (N - 1) 1 fuel (by omega)
    (fun k hk1 hk2 => hmid k hk1 (by omega))
    (by rw [hN']; exact hlast) (by rw [hN']; exact hstop)
  rw [show N - 1 + 1 = N by omega] at h
  simp [get_user_repos, h]

theorem pagination_terminates_witness :
    get_user_repos net4 2 "bob" none =
      some ⟨(List.range' 1 2).map (mkRequest "bob" none),
        Except.ok (((List.range' 1 2).map pageOf4).flatten)⟩ ∧
    (List.range' 1 2).map (mkRequest "bob" none) =
      [mkRequest "bob" none 1, mkRequest "bob" none 2] ∧
    ((List.range' 1 2).map pageOf4).flatten = [⟨"a", "ua"⟩] := by
  refine ⟨?_, by decide, by decide⟩
  exact pagination_terminates net4 pageOf4 links4 2 2 "bob" none (by omega) (by omega)
    (fun k hk1 hk2 => by
      have hk : k = 1 := by omega
      subst hk
      exact ⟨rfl, by decide, by decide⟩)
    rfl (Or.inl rfl)

/-- C6: the Command Runner never raises past its boundary.  If the
subprocess oracle raises, `run_git_command` returns `(false, str(e))`
with no output events; otherwise the returned flag is true iff the exit
code is zero, the rstripped stdout+stderr lines are delivered to the
output callback in order, and the returned combined output is their
newline join. -/
theorem run_git_command_contract (g : GitRun) (cmd : List String) (cwd : Option String) :
    (∀ e, g cmd cwd = Except.error e →
       run_git_command g cmd cwd true = ⟨false, e, [], [⟨cmd, cwd⟩]⟩) ∧
    (∀ pr, g cmd cwd = Except.ok pr →
       ((run_git_command g cmd cwd true).success = true ↔ pr.exitCode = 0) ∧
       (run_git_command g cmd cwd true).events =
         (pr.lines.map pyRstrip).map Event.output ∧
       (run_git_command g cmd cwd true).output =
         "\n".intercalate (pr.lines.map pyRstrip)) := by
  constructor
  · intro e he
    simp [run_git_command, he]
  · intro pr hpr
    simp [run_git_command, hpr]

theorem run_git_command_contract_witness :
    run_git_command gWit ["git", "pull"] none true = ⟨false, "boom", [], [⟨["git", "pull"], none⟩]⟩ ∧
    ((run_git_command gWit ["git", "clone"] none true).success = true ↔ (0 : Int) = 0) ∧
    (run_git_command gWit ["git", "clone"] none true).events =
      [Event.output "hello", Event.output "world"] ∧
    (run_git_command gWit ["git", "clone"] none true).output = "hello\nworld" := by
  refine ⟨(run_git_command_contract gWit ["git", "pull"] none).1 "boom" rfl, ?_⟩
  have h := (run_git_command_contract gWit ["git", "clone"] none).2 ⟨["hello ", "world"], 0⟩ rfl
  exact ⟨h.1, by rw [h.2.1]; decide, by rw [h.2.2]; decide⟩

/-- C9: at the orchestrator boundary a skipped repository returns
`false`: the boolean conflates `Skipped` with `Failed` (a failing clone
also returns `false`); only the status callback distinguishes them
(`跳过` vs `失败`). -/
theorem skip_returns_false (w : World) (r : RepoInfo) (d : String) (cbO : Bool)
    (hex : w.pathExists (w.normpath (pyJoin d r.name)) = true)
    (hng : w.isdir (pyJoin (w.normpath (pyJoin d r.name)) ".git") = false) :
    ((clone_or_pull w r d true cbO).success = false ∧
     (clone_or_pull w r d true cbO).events.filter isStatusEvent
       = [Event.status r.name "处理中", Event.status r.name "跳过"]) ∧
    ∀ (w2 : World) (r2 : RepoInfo) (d2 : String) (pr : ProcResult),
      w2.pathExists (w2.normpath (pyJoin d2 r2.name)) = false →
      w2.git ["git", "clone", r2.clone_url, w2.normpath (pyJoin d2 r2.name)] none
        = Except.ok pr →
      pr.exitCode ≠ 0 →
      (clone_or_pull w2 r2 d2 true cbO).success = false ∧
      (clone_or_pull w2 r2 d2 true cbO).events.filter isStatusEvent
        = [Event.status r2.name "处理中", Event.status r2.name "失败"] := by
  constructor
  · rw [clone_or_pull_skip w r d true cbO hex hng]
    exact ⟨rfl, by simp [statusIf, outIf, List.filter_append, isStatusEvent]⟩
  · intro w2 r2 d2 pr h1 h2 h3
    rw [clone_or_pull_clone w2 r2 d2 true cbO h1]
    have hrun : (run_git_command w2.git
        ["git", "clone", r2.clone_url, w2.normpath (pyJoin d2 r2.name)] none cbO).success
        = false := by
      simp [run_git_command, h2]
      omega
    refine ⟨hrun, ?_⟩
    simp [hrun, statusIf, outIf, List.filter_append,
      run_git_command_filter _ _ _ _ isStatusEvent (fun _ => rfl), isStatusEvent]

theorem skip_returns_false_witness :
    ((clone_or_pull wSkip ⟨"r", "u"⟩ "base" true true).success = false ∧
     (clone_or_pull wSkip ⟨"r", "u"⟩ "base" true true).events.filter isStatusEvent
       = [Event.status "r" "处理中", Event.status "r" "跳过"]) ∧
    ((clone_or_pull wFailClone ⟨"r", "u"⟩ "base" true true).success = false ∧
     (clone_or_pull wFailClone ⟨"r", "u"⟩ "base" true true).events.filter isStatusEvent
       = [Event.status "r" "处理中", Event.status "r" "失败"]) := by
  have h := skip_returns_false wSkip ⟨"r", "u"⟩ "base" true rfl rfl
  exact ⟨h.1, h.2 wFailClone ⟨"r", "u"⟩ "base" ⟨["fatal: nope"], 128⟩ rfl rfl (by decide)⟩

/-- C3: the routing decision is total and exclusive.  If the normalized
target path does not exist, exactly one `git clone cloneURL targetPath`
launch happens and never a pull; if it exists and contains `.git`,
exactly one `git pull` launch happens inside that directory; if it
exists without `.git`, the repository yields `跳过` (Skipped) and the
Command Runner is never invoked. -/
theorem routing_total_exclusive (w : World) (r : RepoInfo) (d : String) (cbS cbO : Bool) :
    (w.pathExists (w.normpath (pyJoin d r.name)) = false →
      (clone_or_pull w r d cbS cbO).calls =
        [⟨["git", "clone", r.clone_url, w.normpath (pyJoin d r.name)], none⟩]) ∧
    (w.pathExists (w.normpath (pyJoin d r.name)) = true →
      w.isdir (pyJoin (w.normpath (pyJoin d r.name)) ".git") = true →
      (clone_or_pull w r d cbS cbO).calls =
        [⟨["git", "pull"], some (w.normpath (pyJoin d r.name))⟩]) ∧
    (w.pathExists (w.normpath (pyJoin d r.name)) = true →
      w.isdir (pyJoin (w.normpath (pyJoin d r.name)) ".git") = false →
      (clone_or_pull w r d cbS cbO).calls = [] ∧
      (clone_or_pull w r d true cbO).events.filter isStatusEvent
        = [Event.status r.name "处理中", Event.status r.name "跳过"]) := by
  refine ⟨fun h => ?_, fun h h2 => ?_, fun h h2 => ?_⟩
  · rw [clone_or_pull_clone w r d cbS cbO h]
    exact run_git_command_calls _ _ _ _
  · rw [clone_or_pull_pull w r d cbS cbO h h2]
    exact run_git_command_calls _ _ _ _
  · rw [clone_or_pull_skip w r d cbS cbO h h2, clone_or_pull_skip w r d true cbO h h2]
    exact ⟨rfl, by simp [statusIf, outIf, List.filter_append, isStatusEvent]⟩

theorem routing_total_exclusive_witness :
    (clone_or_pull wFailClone ⟨"r", "u"⟩ "base" true true).calls =
      [⟨["git", "clone", "u", "base/r"], none⟩] ∧
    (clone_or_pull wPull ⟨"r", "u"⟩ "base" true true).calls =
      [⟨["git", "pull"], some "base/r"⟩] ∧
    (clone_or_pull wSkip ⟨"r", "u"⟩ "base" true true).calls = [] := by
  refine ⟨?_, ?_, ?_⟩
  · have h := (routing_total_exclusive wFailClone ⟨"r", "u"⟩ "base" true true).1 rfl
    simpa [wFailClone, pyJoin] using h
  · have h := (routing_total_exclusive wPull ⟨"r", "u"⟩ "base" true true).2.1 rfl rfl
    simpa [wPull, pyJoin] using h
  · exact ((routing_total_exclusive wSkip ⟨"r", "u"⟩ "base" true true).2.2 rfl rfl).1

/-- C2: the status callback, when supplied, fires exactly twice per
repository — first `处理中` (Processing), then exactly one terminal
status (`成功`, `失败` or `跳过`) — so over any non-empty listing the
number of terminal status events equals the number of repositories, and
no repository is left in Processing when the orchestrator returns. -/
theorem status_callback_protocol (w : World) (d : String) (cbO : Bool) :
    (∀ r : RepoInfo, ∃ t,
       (clone_or_pull w r d true cbO).events.filter isStatusEvent
         = [Event.status r.name "处理中", Event.status r.name t] ∧
       (t = "成功" ∨ t = "失败" ∨ t = "跳过")) ∧
    (∀ (net : Nat → PageResponse) (fuel : Nat) (u : String) (tok : Option String)
       (reqs : List Request) (repos : List RepoInfo) (sr : SessionResult),
       get_user_repos net fuel u tok = some ⟨reqs, Except.ok repos⟩ →
       repos ≠ [] →
       process_repos w net fuel u d tok true cbO = some sr →
       (sr.events.filter isTerminalEvent).length = repos.length) := by
  constructor
  · intro r
    obtain ⟨t, h1, h2, _⟩ := clone_or_pull_statusTrace w r d cbO
    exact ⟨t, h1, h2⟩
  · intro net fuel u tok reqs repos sr hok hne hrun
    rw [process_repos_ok w net fuel u d tok true cbO reqs repos hok hne] at hrun
    cases hrun
    simp only [List.filter_append, List.length_append]
    have h1 : ∀ s, (outIf cbO s).filter isTerminalEvent = [] := by
      intro s
      cases cbO <;> simp [outIf, isTerminalEvent]
    simp [h1, processLoop_terminal_count]

theorem status_callback_protocol_witness :
    (∃ t, (clone_or_pull wSkip ⟨"r", "u"⟩ "base" true true).events.filter isStatusEvent
        = [Event.status "r" "处理中", Event.status "r" t] ∧
      (t = "成功" ∨ t = "失败" ∨ t = "跳过")) ∧
    (srW.events.filter isTerminalEvent).length = 1 := by
  constructor
  · exact (status_callback_protocol wSkip "base" true).1 ⟨"r", "u"⟩
  · exact (status_callback_protocol wSkip "base" true).2 net1 1 "alice" none
      [mkRequest "alice" none 1] [⟨"r", "u"⟩] srW rfl (by decide) rfl

/-- C1: for a run over a non-empty listing, the session returns `true`
iff the failure tally is zero (a skipped repository counts as a
failure), and the final log line is the summary reporting the success
and failure counts.  The witness runs the 3-repository scenario (2
succeed, 1 skipped): the session returns `false` and the summary line
reports 2 成功, 1 失败. -/
theorem session_result_iff_no_failures (w : World) (net : Nat → PageResponse)
    (fuel : Nat) (u d : String) (tok : Option String) (cbS : Bool)
    (reqs : List Request) (repos : List RepoInfo)
    (hok : get_user_repos net fuel u tok = some ⟨reqs, Except.ok repos⟩)
    (hne : repos ≠ []) :
    ∃ sr, process_repos w net fuel u d tok cbS true = some sr ∧
      (sr.result = true ↔ failTally w d cbS true repos = 0) ∧
      ∃ pre, sr.events = pre ++ [Event.output ("\n处理完成: " ++
        toString (succTally w d cbS true repos) ++ " 成功, " ++
        toString (failTally w d cbS true repos) ++ " 失败")] := by
  refine ⟨_, process_repos_ok w net fuel u d tok cbS true reqs repos hok hne, ?_, ?_⟩
  · simp [processLoop_fail]
  · rw [processLoop_succ, processLoop_fail]
    refine ⟨[Event.output ("正在获取用户 " ++ u ++ " 的仓库列表..."),
      Event.output ("共找到 " ++ toString repos.length ++ " 个仓库，开始处理...")] ++
      (processLoop w d cbS true repos).events, ?_⟩
    simp [outIf, List.append_assoc]

theorem session_result_iff_no_failures_witness :
    succTally w3 "base" true true repos3 = 2 ∧
    failTally w3 "base" true true repos3 = 1 ∧
    (process_repos w3 net3 1 "alice" "base" none true true).map SessionResult.result
      = some false ∧
    ("\n处理完成: " ++ toString (succTally w3 "base" true true repos3) ++ " 成功, " ++
      toString (failTally w3 "base" true true repos3) ++ " 失败")
      = "\n处理完成: 2 成功, 1 失败" ∧
    (∃ sr, process_repos w3 net3 1 "alice" "base" none true true = some sr ∧
      (sr.result = true ↔ failTally w3 "base" true true repos3 = 0) ∧
      ∃ pre, sr.events = pre ++ [Event.output ("\n处理完成: " ++
        toString (succTally w3 "base" true true repos3) ++ " 成功, " ++
        toString (failTally w3 "base" true true repos3) ++ " 失败")]) := by
  refine ⟨by decide, by decide, by decide, by decide, ?_⟩
  exact session_result_iff_no_failures w3 net3 1 "alice" "base" none true
    [mkRequest "alice" none 1] repos3 rfl (by decide)

/-- C5: HTTP 404 on the listing yields the UserNotFound domain error
(user does not exist or has no public repositories); the Session Driver
logs it and returns `false` immediately, with zero subprocess launches
and zero status events — the Sync Orchestrator is never invoked. -/
theorem user_not_found_aborts (w : World) (net : Nat → PageResponse) (fuel : Nat)
    (u d : String) (tok : Option String) (cbS : Bool) (msg : String)
    (hfuel : 1 ≤ fuel) (h404 : net 1 = PageResponse.httpError 404 msg) :
    get_user_repos net fuel u tok =
      some ⟨[mkRequest u tok 1], Except.error (userNotFoundMsg u)⟩ ∧
    process_repos w net fuel u d tok cbS true =
      some ⟨false, [mkRequest u tok 1],
        [Event.output ("正在获取用户 " ++ u ++ " 的仓库列表..."),
         Event.output ("错误: " ++ userNotFoundMsg u)], []⟩ := by
  obtain ⟨f, rfl⟩ : ∃ f, fuel = f + 1 := ⟨fuel - 1, by omega⟩
  have hg : get_user_repos net (f + 1) u tok =
      some ⟨[mkRequest u tok 1], Except.error (userNotFoundMsg u)⟩ := by
    simp [get_user_repos, fetchPages, h404, classifyHTTPError, userNotFoundMsg]
  refine ⟨hg, ?_⟩
  have h := process_repos_err w net (f + 1) u d tok cbS true
    [mkRequest u tok 1] (userNotFoundMsg u) hg
  simpa [outIf] using h

theorem user_not_found_aborts_witness :
    get_user_repos net404 1 "ghost" none =
      some ⟨[mkRequest "ghost" none 1], Except.error (userNotFoundMsg "ghost")⟩ ∧
    process_repos wSkip net404 1 "ghost" "base" none true true =
      some ⟨false, [mkRequest "ghost" none 1],
        [Event.output ("正在获取用户 " ++ "ghost" ++ " 的仓库列表..."),
         Event.output ("错误: " ++ userNotFoundMsg "ghost")], []⟩ :=
  user_not_found_aborts wSkip net404 1 "ghost" "base" none true
    "HTTP Error 404: Not Found" (by omega) rfl

/-- C7: HTTP 403 whose message carries the rate-limit indicator yields
the RateLimited domain error (advising retry or a token), and any 403
without the indicator yields the generic APIRequestFailed message; the
two errors are distinct for every underlying message. -/
theorem rate_limited_classification (net : Nat → PageResponse) (fuel : Nat)
    (u : String) (tok : Option String) (msg : String)
    (hfuel : 1 ≤ fuel) (h403 : net 1 = PageResponse.httpError 403 msg) :
    (pyIn "rate limit" msg = true →
       get_user_repos net fuel u tok =
         some ⟨[mkRequest u tok 1], Except.error rateLimitedMsg⟩) ∧
    (pyIn "rate limit" msg = false →
       get_user_repos net fuel u tok =
         some ⟨[mkRequest u tok 1], Except.error ("API 请求失败: " ++ msg)⟩) ∧
    (∀ m : String, "API 请求失败: " ++ m ≠ rateLimitedMsg) := by
  obtain ⟨f, rfl⟩ : ∃ f, fuel = f + 1 := ⟨fuel - 1, by omega⟩
  refine ⟨fun hin => ?_, fun hout => ?_, fun m hm => ?_⟩
  · simp [get_user_repos, fetchPages, h403, classifyHTTPError, hin]
  · simp [get_user_repos, fetchPages, h403, classifyHTTPError, hout]
  · have hd := congrArg String.data hm
    rw [String.data_append] at hd
    have h5 := congrArg (List.take 5) hd
    rw [List.take_append_of_le_length (by decide)] at h5
    exact absurd h5 (by decide)

theorem rate_limited_classification_witness :
    get_user_repos net403rl 1 "alice" none =
      some ⟨[mkRequest "alice" none 1], Except.error rateLimitedMsg⟩ ∧
    get_user_repos net403f 1 "alice" none =
      some ⟨[mkRequest "alice" none 1],
        Except.error ("API 请求失败: " ++ "HTTP Error 403: Forbidden")⟩ ∧
    "API 请求失败: " ++ "HTTP Error 403: Forbidden" ≠ rateLimitedMsg := by
  refine ⟨?_, ?_, ?_⟩
  · exact (rate_limited_classification net403rl 1 "alice" none
      "HTTP Error 403: rate limit exceeded" (by omega) rfl).1 (by decide)
  · exact (rate_limited_classification net403f 1 "alice" none
      "HTTP Error 403: Forbidden" (by omega) rfl).2.1 (by decide)
  · exact (rate_limited_classification net403f 1 "alice" none
      "HTTP Error 403: Forbidden" (by omega) rfl).2.2 "HTTP Error 403: Forbidden"

/-- C10: the listing is all-or-nothing.  An error on a later page
(after successfully fetched pages) or a repository object missing the
`name` key makes `get_user_repos` fail with no partial list, and the
Session Driver then logs the error, returns `false`, and performs zero
repository processing (no subprocess launches, no status events). -/
theorem listing_all_or_nothing :
    (∀ (net : Nat → PageResponse) (fuel : Nat) (u : String) (tok : Option String)
       (l1 : List RepoInfo) (link1 : Option String) (m : String),
       2 ≤ fuel → net 1 = PageResponse.success (l1.map toObj) link1 → l1 ≠ [] →
       hasNextLink link1 = true → net 2 = PageResponse.otherError m →
       get_user_repos net fuel u tok =
         some ⟨[mkRequest u tok 1, mkRequest u tok 2],
           Except.error ("发生错误: " ++ m)⟩) ∧
    (∀ (net : Nat → PageResponse) (fuel : Nat) (u : String) (tok : Option String)
       (o : RepoObj) (os : List RepoObj) (link : Option String),
       1 ≤ fuel → net 1 = PageResponse.success (o :: os) link → o.name = none →
       get_user_repos net fuel u tok =
         some ⟨[mkRequest u tok 1], Except.error "发生错误: \x27name\x27"⟩) ∧
    (∀ (w : World) (net : Nat → PageResponse) (fuel : Nat) (u d : String)
       (tok : Option String) (cbS : Bool) (reqs : List Request) (e : String),
       get_user_repos net fuel u tok = some ⟨reqs, Except.error e⟩ →
       process_repos w net fuel u d tok cbS true =
         some ⟨false, reqs,
           [Event.output ("正在获取用户 " ++ u ++ " 的仓库列表..."),
            Event.output ("错误: " ++ e)], []⟩) := by
  refine ⟨?_, ?_, ?_⟩
  · intro net fuel u tok l1 link1 m hfuel h1 hl1 hnext h2
    obtain ⟨f, rfl⟩ : ∃ f, fuel = f + 2 := ⟨fuel - 2, by omega⟩
    have hne : (l1.map toObj).isEmpty = false := by
      cases l1 with
      | nil => exact absurd rfl hl1
      | cons a l => rfl
    simp [get_user_repos, fetchPages, h1, hne, extractRepos_toObj, hnext, h2]
  · intro net fuel u tok o os link hfuel h1 hname
    obtain ⟨f, rfl⟩ : ∃ f, fuel = f + 1 := ⟨fuel - 1, by omega⟩
    simp [get_user_repos, fetchPages, h1, extractRepos, extractRepo, hname]
  · intro w net fuel u d tok cbS reqs e herr
    have h := process_repos_err w net fuel u d tok cbS true reqs e herr
    simpa [outIf] using h

theorem listing_all_or_nothing_witness :
    get_user_repos netP2 2 "alice" none =
      some ⟨[mkRequest "alice" none 1, mkRequest "alice" none 2],
        Except.error ("发生错误: " ++ "Connection refused")⟩ ∧
    get_user_repos netNoName 1 "alice" none =
      some ⟨[mkRequest "alice" none 1], Except.error "发生错误: \x27name\x27"⟩ ∧
    process_repos wSkip netP2 2 "alice" "base" none true true =
      some ⟨false, [mkRequest "alice" none 1, mkRequest "alice" none 2],
        [Event.output ("正在获取用户 " ++ "alice" ++ " 的仓库列表..."),
         Event.output ("错误: " ++ ("发生错误: " ++ "Connection refused"))], []⟩ := by
  have h1 := listing_all_or_nothing.1 netP2 2 "alice" none [⟨"a", "ua"⟩]
    (some "<n>; rel=\"next\"") "Connection refused" (by omega) rfl (by decide) (by decide) rfl
  exact ⟨h1,
    listing_all_or_nothing.2.1 netNoName 1 "alice" none ⟨none, some "u"⟩ [] none
      (by omega) rfl rfl,
    listing_all_or_nothing.2.2 wSkip netP2 2 "alice" "base" none true
      [mkRequest "alice" none 1, mkRequest "alice" none 2]
      ("发生错误: " ++ "Connection refused") h1⟩

theorem get_user_repos_requests (net : Nat → PageResponse) (fuel : Nat)
    (u : String) (tok : Option String) (lr : ListResult)
    (h : get_user_repos net fuel u tok = some lr) :
    ∃ pages : List Nat, lr.requests = pages.map (mkRequest u tok) := by
  unfold get_user_repos at h
  cases hfp : fetchPages net u fuel 1 with
  | none => rw [hfp] at h; exact absurd h (by simp)
  | some pr =>
    obtain ⟨pages, res⟩ := pr
    rw [hfp] at h
    cases h
    exact ⟨pages, rfl⟩

theorem process_repos_requests (w : World) (net : Nat → PageResponse) (fuel : Nat)
    (u d : String) (tok : Option String) (cbS cbO : Bool) (sr : SessionResult)
    (h : process_repos w net fuel u d tok cbS cbO = some sr) :
    ∃ lr, get_user_repos net fuel u tok = some lr ∧ sr.requests = lr.requests := by
  unfold process_repos at h
  cases hg : get_user_repos net fuel u tok with
  | none => rw [hg] at h; exact absurd h (by simp)
  | some lr =>
    rw [hg] at h
    refine ⟨lr, rfl, ?_⟩
    obtain ⟨reqs, res⟩ := lr
    cases res with
    | error e => cases h; rfl
    | ok repos =>
      cases hemp : repos.isEmpty with
      | true => simp only [hemp, if_true] at h; cases h; rfl
      | false => simp only [hemp, Bool.false_eq_true, if_false] at h; cases h; rfl

/-- C8: if a token is supplied, every listing request of the session
carries the `Authorization: token ...` header; and the log output never
reveals the token — two runs differing only in the token produce
identical event streams, results and subprocess calls. -/
theorem token_confidentiality :
    (∀ (w : World) (net : Nat → PageResponse) (fuel : Nat) (u d tk : String)
       (cbS cbO : Bool) (sr : SessionResult),
       process_repos w net fuel u d (some tk) cbS cbO = some sr →
       ∀ r ∈ sr.requests, r.headers = [("Authorization", "token " ++ tk)]) ∧
    (∀ (w : World) (net : Nat → PageResponse) (fuel : Nat) (u d : String)
       (t1 t2 : Option String) (cbS cbO : Bool),
       (process_repos w net fuel u d t1 cbS cbO).map SessionResult.events =
         (process_repos w net fuel u d t2 cbS cbO).map SessionResult.events ∧
       (process_repos w net fuel u d t1 cbS cbO).map SessionResult.result =
         (process_repos w net fuel u d t2 cbS cbO).map SessionResult.result ∧
       (process_repos w net fuel u d t1 cbS cbO).map SessionResult.calls =
         (process_repos w net fuel u d t2 cbS cbO).map SessionResult.calls) := by
  constructor
  · intro w net fuel u d tk cbS cbO sr hrun r hr
    obtain ⟨lr, hg, hreq⟩ := process_repos_requests w net fuel u d (some tk) cbS cbO sr hrun
    obtain ⟨pages, hpages⟩ := get_user_repos_requests net fuel u (some tk) lr hg
    rw [hreq, hpages] at hr
    obtain ⟨p, _, rfl⟩ := List.mem_map.mp hr
    rfl
  · intro w net fuel u d t1 t2 cbS cbO
    unfold process_repos get_user_repos
    cases hfp : fetchPages net u fuel 1 with
    | none => simp
    | some pr =>
      obtain ⟨pages, res⟩ := pr
      cases res with
      | error e => simp
      | ok repos => cases hemp : repos.isEmpty <;> simp [hemp]

theorem token_confidentiality_witness :
    (mkRequest "alice" (some "tk") 1).headers = [("Authorization", "token " ++ "tk")] ∧
    (process_repos wSkip netE 1 "alice" "base" (some "tk") true true).map
        SessionResult.events =
      (process_repos wSkip netE 1 "alice" "base" none true true).map
        SessionResult.events := by
  constructor
  · exact token_confidentiality.1 wSkip netE 1 "alice" "base" "tk" true true srW8 rfl
      (mkRequest "alice" (some "tk") 1) (by decide)
  · exact (token_confidentiality.2 wSkip netE 1 "alice" "base" (some "tk") none true true).1

end GitBackup
